import Mathlib

/-!
Verification of the tool-augmented conversational agent session pattern of
this repository, together with the concrete example tools shipped in
`src/examples/02-custom-tools.ts`.

The repository's own code consists of example scripts that call an external
SDK (`query`, `tool`, hooks).  The concrete local business logic — the
insurance-premium calculator and the mock vehicle lookup — is embedded here
directly from the source.  The session harness (tool registry, hook
pipeline, session transport state machine, session driver) is not present
under `src/`; the specification documents the minimal harness a compatible
local implementation would need, and those parts are modelled from the
spec's words, each marked `Modelled from the spec:` in its doc comment.

JavaScript numbers are modelled as exact rationals (`ℚ`); `Math.round` is
floor of the argument plus one half, which is JavaScript's round-half-up.
-/

namespace AgentSession

/-- JavaScript `Math.round`: rounds half toward positive infinity. -/
def jsRound (q : ℚ) : ℤ := ⌊q + 1/2⌋

/-- Rounding to two decimals as written in the examples:
`Math.round(x * 100) / 100`. -/
def round2 (q : ℚ) : ℚ := (jsRound (q * 100) : ℚ) / 100

/-! ## The `calculate_premium` tool (src/examples/02-custom-tools.ts, lines 25-66) -/

/-- Argument record of the `calculate_premium` handler
(`CalculatePremiumArgs` in the source). -/
structure CalculatePremiumArgs where
  age : ℚ
  vehicleValue : ℚ
  accidentHistory : ℚ
deriving DecidableEq, Repr

/-- The zod schema of `calculate_premium`:
`age` in [16,100], `vehicleValue ≥ 0`, `accidentHistory` in [0,10]. -/
def premiumArgsValid (a : CalculatePremiumArgs) : Prop :=
  16 ≤ a.age ∧ a.age ≤ 100 ∧ 0 ≤ a.vehicleValue ∧
    0 ≤ a.accidentHistory ∧ a.accidentHistory ≤ 10

instance (a : CalculatePremiumArgs) : Decidable (premiumArgsValid a) := by
  unfold premiumArgsValid; infer_instance

/-- The JSON object serialized into the `calculate_premium` result text
(source lines 56-62). -/
structure PremiumBreakdown where
  basePremium : ℚ
  ageFactor : ℚ
  vehicleValueSurcharge : ℚ
  accidentSurcharge : ℚ
  totalPremium : ℚ
deriving DecidableEq, Repr

/-- The premium computation of the `calculate_premium` handler, line by line
from the source (lines 39-62).  The successively shadowed `basePremium`
variable of the source is written as `base0`..`base3`. -/
def premiumBreakdown (args : CalculatePremiumArgs) : PremiumBreakdown :=
  let base0 : ℚ := 500
  let base1 : ℚ :=
    if args.age < 25 then base0 * 1.5
    else if args.age > 65 then base0 * 1.2
    else base0
  let base2 : ℚ := base1 + args.vehicleValue * 0.01
  let base3 : ℚ := base2 * (1 + args.accidentHistory * 0.15)
  let totalPremium : ℚ := round2 base3
  PremiumBreakdown.mk
    500
    (if args.age < 25 then 1.5 else if args.age > 65 then 1.2 else 1.0)
    (round2 (args.vehicleValue * 0.01))
    (round2 (base3 * args.accidentHistory * 0.15))
    totalPremium

/-! ## The `get_vehicle_info` tool (src/examples/02-custom-tools.ts, lines 69-98) -/

/-- Argument record of the `get_vehicle_info` handler
(`VehicleInfoArgs` in the source). -/
structure VehicleInfoArgs where
  make : String
  model : String
  year : ℚ
deriving DecidableEq, Repr

/-- The zod schema of `get_vehicle_info`: `make`, `model` strings,
`year` in [1990,2025]. -/
def vehicleArgsValid (a : VehicleInfoArgs) : Prop :=
  1990 ≤ a.year ∧ a.year ≤ 2025

instance (a : VehicleInfoArgs) : Decidable (vehicleArgsValid a) := by
  unfold vehicleArgsValid; infer_instance

/-- The JSON object serialized into the `get_vehicle_info` result text
(source lines 81-89). -/
structure VehicleInfo where
  make : String
  model : String
  year : ℚ
  safetyRating : ℚ
  averageValue : ℚ
  theftRate : String
  repairCost : String
deriving DecidableEq, Repr

/-- The simulated vehicle database lookup of the `get_vehicle_info`
handler (lines 81-89): echoes the input fields and attaches constants. -/
def vehicleInfoLookup (args : VehicleInfoArgs) : VehicleInfo :=
  VehicleInfo.mk args.make args.model args.year 4.5 25000 "Low" "Medium"

/-- A structured stand-in for the JSON text payload a tool result carries. -/
inductive JsonPayload
  | premium (p : PremiumBreakdown)
  | vehicle (v : VehicleInfo)
deriving DecidableEq, Repr

/-- One item of a handler's `content` array; `type` is the string tag
(`'text' as const` in the source). -/
structure ContentItem where
  type : String
  payload : JsonPayload
deriving DecidableEq, Repr

/-- A handler's return value: a `content` array. -/
structure HandlerResult where
  content : List ContentItem
deriving DecidableEq, Repr

/-- The full `calculate_premium` handler (lines 35-65): returns a single
text content item carrying the premium breakdown JSON. -/
def calculatePremiumHandler (args : CalculatePremiumArgs) : HandlerResult :=
  HandlerResult.mk [ContentItem.mk "text" (JsonPayload.premium (premiumBreakdown args))]

/-- The full `get_vehicle_info` handler (lines 77-97): returns a single
text content item carrying the vehicle info JSON. -/
def getVehicleInfoHandler (args : VehicleInfoArgs) : HandlerResult :=
  HandlerResult.mk [ContentItem.mk "text" (JsonPayload.vehicle (vehicleInfoLookup args))]

/-! ### Claim-side formulas for the premium (for comparison with the code) -/

/-- The age factor named by the claims: 1.5 below 25, 1.2 above 65,
1.0 otherwise. -/
def ageFactorSpec (age : ℚ) : ℚ :=
  if age < 25 then 1.5 else if age > 65 then 1.2 else 1.0

/-- The premium after the accident multiplier has been applied (the exact,
unrounded value the code holds in `basePremium` at line 49). -/
def postMultiplierPremium (a : CalculatePremiumArgs) : ℚ :=
  (500 * ageFactorSpec a.age + 0.01 * a.vehicleValue) * (1 + 0.15 * a.accidentHistory)

/-- The sum of the reported breakdown parts:
`basePremium·ageFactor + vehicleValueSurcharge + accidentSurcharge`. -/
def breakdownPartsSum (a : CalculatePremiumArgs) : ℚ :=
  (premiumBreakdown a).basePremium * (premiumBreakdown a).ageFactor +
    (premiumBreakdown a).vehicleValueSurcharge + (premiumBreakdown a).accidentSurcharge

/-! ## Schema validation (Tool Registry, spec §4.1)

Modelled from the spec: the repository ships only zod schema declarations
(the validator itself lives in the external library), so the validation
contract — "applies the input schema; fails with `SchemaViolation` listing
every failing field (not just the first)" over type, numeric range, string
length, enum membership and required/optional constraints — is modelled
here from the spec's words. -/

/-- A JSON-ish value of a raw tool input. -/
inductive JValue
  | num (q : ℚ)
  | str (s : String)
  | bool (b : Bool)
deriving DecidableEq, Repr

/-- A raw tool input: an association list of field name to value. -/
abbrev RawInput := List (String × JValue)

/-- The declared type of a schema field. -/
inductive VType
  | num
  | str
  | bool
deriving DecidableEq, Repr

/-- Modelled from the spec: the constraints a schema may declare on one
field — type, numeric range, string length, enum membership,
required/optional. -/
structure FieldSpec where
  type : VType
  minNum : Option ℚ
  maxNum : Option ℚ
  minLen : Option Nat
  maxLen : Option Nat
  enumVals : Option (List String)
  optional : Bool
deriving DecidableEq, Repr

/-- A numeric field with optional lower and upper bounds, as produced by
`z.number().min(lo).max(hi)`. -/
def numField (lo hi : Option ℚ) : FieldSpec :=
  FieldSpec.mk VType.num lo hi none none none false

/-- An unconstrained required string field, as produced by `z.string()`. -/
def strField : FieldSpec :=
  FieldSpec.mk VType.str none none none none none false

/-- Modelled from the spec: whether a present value satisfies one field's
declared type and constraints. -/
def valueOk (v : JValue) (fs : FieldSpec) : Bool :=
  match v, fs.type with
  | JValue.num q, VType.num =>
      (match fs.minNum with | some m => decide (m ≤ q) | none => true) &&
      (match fs.maxNum with | some m => decide (q ≤ m) | none => true)
  | JValue.str s, VType.str =>
      (match fs.minLen with | some m => decide (m ≤ s.length) | none => true) &&
      (match fs.maxLen with | some m => decide (s.length ≤ m) | none => true) &&
      (match fs.enumVals with | some es => es.contains s | none => true)
  | JValue.bool _, VType.bool => true
  | _, _ => false

/-- Modelled from the spec: whether a raw input satisfies one schema field
(a missing field is acceptable only when the field is optional). -/
def fieldOk (raw : RawInput) (name : String) (fs : FieldSpec) : Bool :=
  match raw.lookup name with
  | none => fs.optional
  | some v => valueOk v fs

/-- A tool input schema: field name to declared constraints, in
declaration order. -/
abbrev Schema := List (String × FieldSpec)

/-- Modelled from the spec: `validate` applies the schema and collects
EVERY failing field, not just the first. -/
def failingFields (schema : Schema) (raw : RawInput) : List String :=
  (schema.filter (fun p => !(fieldOk raw p.1 p.2))).map Prod.fst

/-- The zod schema of the spec's `"add"` scenario:
`{a: number, b: number}`. -/
def addToolSchema : Schema := [("a", numField none none), ("b", numField none none)]

/-- The zod schema of `calculate_premium` as declared at source lines
29-33, in the registry's field-spec form. -/
def calculatePremiumSchema : Schema :=
  [("age", numField (some 16) (some 100)),
   ("vehicleValue", numField (some 0) none),
   ("accidentHistory", numField (some 0) (some 10))]

/-- The zod schema of `get_vehicle_info` as declared at source lines
72-76, in the registry's field-spec form. -/
def getVehicleInfoSchema : Schema :=
  [("make", strField), ("model", strField),
   ("year", numField (some 1990) (some 2025))]

/-! ## Tool Registry execution boundary (spec §4.1, §7)

Modelled from the spec: `resolve`/`validate`/`invoke` with `UnknownTool`,
`SchemaViolation` and `ToolExecutionError` all caught at the registry
boundary and converted into an error-flagged tool result. -/

/-- A registered tool: name, description, input schema, and a handler that
may fail (a thrown error is the `Except.error` case). -/
structure ToolDef where
  name : String
  description : String
  schema : Schema
  handler : RawInput → Except String String

/-- A tool-invocation-result fed back into the conversation. -/
structure ToolResult where
  toolName : String
  isError : Bool
  content : String
deriving DecidableEq, Repr

/-- Modelled from the spec: `resolve(name)` returns the Tool Definition or
fails with `UnknownTool`. -/
def resolve (reg : List ToolDef) (name : String) : Option ToolDef :=
  reg.find? (fun t => t.name == name)

/-- Modelled from the spec: the registry boundary.  Resolution, validation
and handler execution; every failure (`UnknownTool`, `SchemaViolation`,
`ToolExecutionError`) is caught and converted into an error-flagged tool
result.  Returns the result together with the number of handler
executions it performed. -/
def execTool (reg : List ToolDef) (allowed : List String) (name : String)
    (raw : RawInput) : ToolResult × Nat :=
  if ¬ allowed.contains name then
    (ToolResult.mk name true "UnknownTool", 0)
  else
    match resolve reg name with
    | none => (ToolResult.mk name true "UnknownTool", 0)
    | some t =>
      match failingFields t.schema raw with
      | [] =>
        match t.handler raw with
        | Except.ok payload => (ToolResult.mk name false payload, 1)
        | Except.error e =>
            (ToolResult.mk name true ("ToolExecutionError: " ++ e), 1)
      | fs =>
          (ToolResult.mk name true
            ("SchemaViolation: " ++ String.intercalate ", " fs), 0)

/-! ## Hook Pipeline (spec §4.3)

Modelled from the spec: pre-hooks run sequentially; the aggregate decision
is deny if any hook denies; a hook that throws is an implicit deny carrying
the thrown detail (fail-closed); otherwise approve only when some hook
explicitly approved or the mode is auto-approve. -/

/-- A pending tool-invocation-request handed to the pre-hooks. -/
structure ToolRequest where
  toolName : String
  args : RawInput

/-- A hook's verdict: approve, deny with a reason, or pass-through. -/
inductive Verdict
  | approve
  | deny (reason : String)
  | passThrough
deriving DecidableEq, Repr

/-- What actually happened when a hook ran: it returned a verdict, or it
threw with some detail. -/
inductive HookOutcome
  | ret (v : Verdict)
  | thrown (detail : String)
deriving DecidableEq, Repr

/-- Modelled from the spec: a hook that throws is treated as an implicit
deny with the thrown detail as the reason (fail-closed policy). -/
def effectiveVerdict : HookOutcome → Verdict
  | HookOutcome.ret v => v
  | HookOutcome.thrown d => Verdict.deny d

/-- Whether a verdict is a deny. -/
def Verdict.isDeny : Verdict → Bool
  | Verdict.deny _ => true
  | _ => false

/-- Whether a verdict is an explicit approve. -/
def Verdict.isApprove : Verdict → Bool
  | Verdict.approve => true
  | _ => false

/-- The reason of the first denying verdict in registration order. -/
def firstDenyReason : List Verdict → Option String
  | [] => none
  | Verdict.deny r :: _ => some r
  | _ :: vs => firstDenyReason vs

/-- The pipeline's aggregate decision for one tool-invocation-request. -/
inductive Decision
  | approved
  | denied (reason : Option String)
deriving DecidableEq, Repr

/-- A pre-hook: a function from the pending request to what running the
hook does. -/
abbrev PreHook := ToolRequest → HookOutcome

/-- Modelled from the spec: `runPre` invokes each registered pre-hook in
registration order; aggregate is deny if any hook denies (throwing counts
as denying, fail-closed), else approve only if at least one hook
explicitly approved or the mode is auto-approve. -/
def runPre (autoApprove : Bool) (hooks : List PreHook) (req : ToolRequest) :
    Decision :=
  let verdicts := hooks.map (fun h => effectiveVerdict (h req))
  match firstDenyReason verdicts with
  | some r => Decision.denied (some r)
  | none =>
      if autoApprove || verdicts.any Verdict.isApprove then Decision.approved
      else Decision.denied none

/-! ## Session Transport state machine (spec §4.2) -/

/-- The states of the Session Transport state machine. -/
inductive SessState
  | idle
  | thinking
  | awaitingToolApproval
  | toolRunning
  | responding
  | terminal
deriving DecidableEq, Repr

/-- What one in-session tool-invocation-request produced: the fed-back
result, how many times the tool's handler ran, and the states traversed
after `Thinking` emitted the request. -/
structure RequestOutcome where
  result : ToolResult
  handlerCalls : Nat
  states : List SessState
deriving Repr

/-- Modelled from the spec: handling of one tool-invocation-request.
`AwaitingToolApproval → ToolRunning` only if the pre-hooks collectively
approve; otherwise back to `Thinking` with a synthetic denial result fed
back into the conversation; on approval the registry boundary runs
(`validate` + `invoke`, failures caught) and the machine returns to
`Thinking`. -/
def processRequest (autoApprove : Bool) (hooks : List PreHook)
    (reg : List ToolDef) (allowed : List String) (req : ToolRequest) :
    RequestOutcome :=
  match runPre autoApprove hooks req with
  | Decision.denied r =>
      RequestOutcome.mk
        (ToolResult.mk req.toolName true
          ("HookDenied: " ++ r.getD "not approved"))
        0
        [SessState.awaitingToolApproval, SessState.thinking]
  | Decision.approved =>
      let res := execTool reg allowed req.toolName req.args
      RequestOutcome.mk res.1 res.2
        [SessState.awaitingToolApproval, SessState.toolRunning,
         SessState.thinking]

/-- One streamed Session Event. -/
inductive Event
  | assistantText (text : String)
  | toolRequestEv (name : String) (args : RawInput)
  | toolResultEv (name : String) (isError : Bool) (content : String)
  | terminal (totalTurns : Nat)
deriving DecidableEq, Repr

/-- Whether an event is the terminal summary. -/
def Event.isTerminal : Event → Bool
  | Event.terminal _ => true
  | _ => false

/-- The model's externally simulated decision at one thinking step. -/
inductive ModelDecision
  | answer (text : String)
  | callTool (name : String) (args : RawInput)
deriving Repr

/-- A session configuration (spec §3, §6). -/
structure SessionConfig where
  prompt : String
  allowedTools : List String
  maxTurns : Nat
  autoApprove : Bool
  preHooks : List PreHook

/-- Modelled from the spec: the session loop.  `remaining` is the unspent
turn budget (`maxTurns - turns`), `step` indexes the model's thinking
steps, `turns` is the Turn Counter.  Each emitted event is annotated with
the value of the Turn Counter at emission.  The loop terminates with a
terminal-summary either on a natural final answer or when the budget is
exhausted; a tool round (approved, denied, or failed) increments the Turn
Counter by one. -/
def runLoop (reg : List ToolDef) (hooks : List PreHook) (autoApprove : Bool)
    (allowed : List String) (decide : Nat → ModelDecision) :
    Nat → Nat → Nat → List (Nat × Event)
  | 0, _, turns => [(turns, Event.terminal turns)]
  | remaining + 1, step, turns =>
    match decide step with
    | ModelDecision.answer t =>
        [(turns, Event.assistantText t), (turns, Event.terminal turns)]
    | ModelDecision.callTool name args =>
        let out := processRequest autoApprove hooks reg allowed
          (ToolRequest.mk name args)
        (turns, Event.toolRequestEv name args) ::
        (turns + 1,
          Event.toolResultEv out.result.toolName out.result.isError
            out.result.content) ::
        runLoop reg hooks autoApprove allowed decide remaining (step + 1)
          (turns + 1)

/-- Modelled from the spec: the Session Driver's `run(configuration)`.
Configuration is validated first (prompt non-empty, max turns ≥ 1, allowed
tools all resolvable) and fails fast with `InvalidConfiguration`, no
events emitted; otherwise the session loop produces the finite event
sequence. -/
def run (cfg : SessionConfig) (reg : List ToolDef)
    (decide : Nat → ModelDecision) : Except String (List (Nat × Event)) :=
  if cfg.prompt = "" then
    Except.error "InvalidConfiguration: empty prompt"
  else if cfg.maxTurns = 0 then
    Except.error "InvalidConfiguration: maxTurns must be at least 1"
  else if ¬ cfg.allowedTools.all (fun n => (resolve reg n).isSome) then
    Except.error "InvalidConfiguration: unresolvable allowed tool"
  else
    Except.ok (runLoop reg cfg.preHooks cfg.autoApprove cfg.allowedTools
      decide cfg.maxTurns 0 0)

/-! ## Rounding lemmas -/

/-- Rounding to two decimals overshoots by at most half a cent. -/
theorem round2_le (x : ℚ) : round2 x ≤ x + 1/200 := by
  unfold round2 jsRound
  have h := Int.floor_le (x * 100 + 1/2)
  linarith

/-- Rounding to two decimals undershoots by strictly less than half a
cent. -/
theorem lt_round2 (x : ℚ) : x - 1/200 < round2 x := by
  unfold round2 jsRound
  have h := Int.sub_one_lt_floor (x * 100 + 1/2)
  linarith

/-- Integers pass through two-decimal rounding additively. -/
theorem round2_intCast_add (n : ℤ) (x : ℚ) :
    round2 ((n : ℚ) + x) = (n : ℚ) + round2 x := by
  unfold round2 jsRound
  have harg : ((n : ℚ) + x) * 100 + 1/2 = ((100 * n : ℤ) : ℚ) + (x * 100 + 1/2) := by
    push_cast; ring
  rw [harg, Int.floor_int_add]
  push_cast
  ring

/-- Two-decimal rounding of zero is zero. -/
theorem round2_zero : round2 0 = 0 := by
  unfold round2 jsRound
  norm_num

/-- The premium breakdown, re-expressed through the claim-side formulas:
base 500, age factor, rounded vehicle surcharge, accident surcharge rounded
from the post-multiplier premium, rounded total. -/
theorem premiumBreakdown_eq (a : CalculatePremiumArgs) :
    premiumBreakdown a =
      PremiumBreakdown.mk 500 (ageFactorSpec a.age)
        (round2 (a.vehicleValue * 0.01))
        (round2 (postMultiplierPremium a * a.accidentHistory * 0.15))
        (round2 (postMultiplierPremium a)) := by
  simp only [premiumBreakdown, postMultiplierPremium, ageFactorSpec]
  split_ifs <;> congr 1 <;>
    first
    | rfl
    | (congr 1; ring)

/-- The age factor is one of 1.5, 1.2, 1.0; in particular 500 times it is
an integer and it is at least 1. -/
theorem ageFactorSpec_cases (age : ℚ) :
    (∃ nf : ℤ, (nf : ℚ) = 500 * ageFactorSpec age) ∧ 1 ≤ ageFactorSpec age := by
  unfold ageFactorSpec
  split_ifs
  · exact ⟨⟨750, by norm_num⟩, by norm_num⟩
  · exact ⟨⟨600, by norm_num⟩, by norm_num⟩
  · exact ⟨⟨500, by norm_num⟩, by norm_num⟩

/-- C8: for every schema-valid input the `calculate_premium` handler
returns a single text content whose `totalPremium` is the two-decimal
rounding of `(500·f(age) + 0.01·vehicleValue)·(1 + 0.15·accidentHistory)`,
whose `ageFactor` is `f(age)` (1.5 below 25, 1.2 above 65, 1.0 otherwise),
and whose `basePremium` is 500. -/
theorem calculate_premium_functional (a : CalculatePremiumArgs)
    (hv : premiumArgsValid a) :
    ∃ pb : PremiumBreakdown,
      (calculatePremiumHandler a).content =
        [ContentItem.mk "text" (JsonPayload.premium pb)] ∧
      pb.totalPremium = round2 (postMultiplierPremium a) ∧
      pb.ageFactor = ageFactorSpec a.age ∧
      pb.basePremium = 500 := by
  refine ⟨premiumBreakdown a, rfl, ?_, ?_, ?_⟩ <;> rw [premiumBreakdown_eq]

/-- C8 witness: the input of the example prompt (age 22, vehicle value
24000, one accident) is schema-valid and the theorem applies to it. -/
theorem calculate_premium_functional_witness :
    premiumArgsValid (CalculatePremiumArgs.mk 22 24000 1) ∧
    ∃ pb : PremiumBreakdown,
      (calculatePremiumHandler (CalculatePremiumArgs.mk 22 24000 1)).content =
        [ContentItem.mk "text" (JsonPayload.premium pb)] ∧
      pb.totalPremium = round2 (postMultiplierPremium (CalculatePremiumArgs.mk 22 24000 1)) ∧
      pb.ageFactor = ageFactorSpec (CalculatePremiumArgs.mk 22 24000 1).age ∧
      pb.basePremium = 500 :=
  ⟨by decide, calculate_premium_functional (CalculatePremiumArgs.mk 22 24000 1) (by decide)⟩

/-- C9 counterexample: the schema-valid input age 30, vehicle value 0,
accident history 1/10000 has a strictly positive accident history and a
strictly positive base amount, yet the sum of the reported breakdown
parts EQUALS the reported total premium (both are 500.01) instead of
strictly exceeding it. -/
theorem premium_parts_sum_counterexample :
    premiumArgsValid (CalculatePremiumArgs.mk 30 0 (1/10000)) ∧
    0 < (CalculatePremiumArgs.mk 30 0 (1/10000)).accidentHistory ∧
    0 < 500 * ageFactorSpec (CalculatePremiumArgs.mk 30 0 (1/10000)).age +
        0.01 * (CalculatePremiumArgs.mk 30 0 (1/10000)).vehicleValue ∧
    breakdownPartsSum (CalculatePremiumArgs.mk 30 0 (1/10000)) =
      (premiumBreakdown (CalculatePremiumArgs.mk 30 0 (1/10000))).totalPremium := by
  refine ⟨?_, ?_, ?_, ?_⟩
  · norm_num [premiumArgsValid]
  · norm_num
  · norm_num [ageFactorSpec]
  · norm_num [breakdownPartsSum, premiumBreakdown, round2, jsRound]

/-- C9 (amended): `accidentSurcharge` is computed from the
post-multiplier premium, and — for schema-valid inputs whose accident
history is a whole number of accidents — the sum of the reported parts
equals `totalPremium` exactly when the accident history is zero, and
strictly exceeds it otherwise. -/
theorem premium_parts_sum_amended (a : CalculatePremiumArgs)
    (hv : premiumArgsValid a) (n : ℕ) (hn : a.accidentHistory = (n : ℚ)) :
    (premiumBreakdown a).accidentSurcharge =
      round2 (postMultiplierPremium a * 0.15 * a.accidentHistory) ∧
    (breakdownPartsSum a = (premiumBreakdown a).totalPremium ↔
      a.accidentHistory = 0) ∧
    (0 < a.accidentHistory →
      (premiumBreakdown a).totalPremium < breakdownPartsSum a) := by
  obtain ⟨hage1, hage2, hvv, hah0, hah10⟩ := hv
  obtain ⟨⟨nf, hnf⟩, hf1⟩ := ageFactorSpec_cases a.age
  set f := ageFactorSpec a.age with hfdef
  set v := a.vehicleValue with hvdef
  set h := a.accidentHistory with hhdef
  have hsum : breakdownPartsSum a =
      500 * f + round2 (v * 0.01) +
        round2 (postMultiplierPremium a * h * 0.15) := by
    unfold breakdownPartsSum
    rw [premiumBreakdown_eq]
  have htot : (premiumBreakdown a).totalPremium =
      round2 (postMultiplierPremium a) := by
    rw [premiumBreakdown_eq]
  have hP : postMultiplierPremium a = (500 * f + 0.01 * v) * (1 + 0.15 * h) := rfl
  have hB : (500:ℚ) ≤ 500 * f + 0.01 * v := by nlinarith
  have hacc : (premiumBreakdown a).accidentSurcharge =
      round2 (postMultiplierPremium a * 0.15 * h) := by
    rw [premiumBreakdown_eq]
    ring_nf
  have hstrict : 0 < h →
      (premiumBreakdown a).totalPremium < breakdownPartsSum a := by
    intro hpos
    have hh1 : (1:ℚ) ≤ h := by
      rw [hn] at hpos ⊢
      exact_mod_cast Nat.one_le_iff_ne_zero.mpr
        (fun h0 => by simp [h0] at hpos)
    have r1 := lt_round2 (v * 0.01)
    have r2 := lt_round2 (postMultiplierPremium a * h * 0.15)
    have r3 := round2_le (postMultiplierPremium a)
    rw [hsum, htot, hP] at *
    nlinarith [mul_le_mul hh1 hh1 zero_le_one (le_trans zero_le_one hh1),
      mul_nonneg (mul_nonneg (le_of_lt hpos) (le_of_lt hpos)) (le_trans (by norm_num) hB)]
  have heq0 : h = 0 → breakdownPartsSum a = (premiumBreakdown a).totalPremium := by
    intro h0
    have hvv01 : round2 (v * 0.01) = round2 (0.01 * v) := by congr 1; ring
    have hz : postMultiplierPremium a * h * 0.15 = 0 := by rw [hP, h0]; ring
    have harg : postMultiplierPremium a = (nf : ℚ) + 0.01 * v := by
      rw [hP, h0, ← hnf]; ring
    rw [hsum, htot, hz, round2_zero, harg, round2_intCast_add, hnf, hvv01]
    ring
  refine ⟨hacc, ⟨?_, heq0⟩, hstrict⟩
  intro heq
  by_contra hne
  exact (hstrict (lt_of_le_of_ne hah0 (Ne.symm hne))).ne' heq

/-- C9 amended witness: the theorem applied to the example-prompt input
(age 22, vehicle value 24000, one accident). -/
theorem premium_parts_sum_amended_witness :
    premiumArgsValid (CalculatePremiumArgs.mk 22 24000 1) ∧
    ((premiumBreakdown (CalculatePremiumArgs.mk 22 24000 1)).accidentSurcharge =
      round2 (postMultiplierPremium (CalculatePremiumArgs.mk 22 24000 1) * 0.15 *
        (CalculatePremiumArgs.mk 22 24000 1).accidentHistory) ∧
    (breakdownPartsSum (CalculatePremiumArgs.mk 22 24000 1) =
        (premiumBreakdown (CalculatePremiumArgs.mk 22 24000 1)).totalPremium ↔
      (CalculatePremiumArgs.mk 22 24000 1).accidentHistory = 0) ∧
    (0 < (CalculatePremiumArgs.mk 22 24000 1).accidentHistory →
      (premiumBreakdown (CalculatePremiumArgs.mk 22 24000 1)).totalPremium <
        breakdownPartsSum (CalculatePremiumArgs.mk 22 24000 1))) :=
  ⟨by decide,
    premium_parts_sum_amended (CalculatePremiumArgs.mk 22 24000 1) (by decide)
      1 (by norm_num)⟩

/-- C10: for every pair of schema-valid inputs, the `get_vehicle_info`
results carry identical constant `safetyRating` (4.5), `averageValue`
(25000), `theftRate` ("Low") and `repairCost` ("Medium") fields, echo the
input `make`, `model`, `year` verbatim, and are a single text content
(the handler never fails on schema-valid input). -/
theorem vehicle_info_constant_fields (a1 a2 : VehicleInfoArgs)
    (h1 : vehicleArgsValid a1) (h2 : vehicleArgsValid a2) :
    ∃ v1 v2 : VehicleInfo,
      (getVehicleInfoHandler a1).content =
        [ContentItem.mk "text" (JsonPayload.vehicle v1)] ∧
      (getVehicleInfoHandler a2).content =
        [ContentItem.mk "text" (JsonPayload.vehicle v2)] ∧
      v1.safetyRating = v2.safetyRating ∧ v1.safetyRating = 4.5 ∧
      v1.averageValue = v2.averageValue ∧ v1.averageValue = 25000 ∧
      v1.theftRate = v2.theftRate ∧ v1.theftRate = "Low" ∧
      v1.repairCost = v2.repairCost ∧ v1.repairCost = "Medium" ∧
      v1.make = a1.make ∧ v1.model = a1.model ∧ v1.year = a1.year ∧
      v2.make = a2.make ∧ v2.model = a2.model ∧ v2.year = a2.year :=
  ⟨vehicleInfoLookup a1, vehicleInfoLookup a2, rfl, rfl, rfl, rfl, rfl, rfl,
    rfl, rfl, rfl, rfl, rfl, rfl, rfl, rfl, rfl, rfl⟩

/-- C10 witness: the theorem applied to two concrete schema-valid
vehicles. -/
theorem vehicle_info_constant_fields_witness :
    vehicleArgsValid (VehicleInfoArgs.mk "Honda" "Accord" 2020) ∧
    vehicleArgsValid (VehicleInfoArgs.mk "Toyota" "Camry" 1999) ∧
    ∃ v1 v2 : VehicleInfo,
      (getVehicleInfoHandler (VehicleInfoArgs.mk "Honda" "Accord" 2020)).content =
        [ContentItem.mk "text" (JsonPayload.vehicle v1)] ∧
      (getVehicleInfoHandler (VehicleInfoArgs.mk "Toyota" "Camry" 1999)).content =
        [ContentItem.mk "text" (JsonPayload.vehicle v2)] ∧
      v1.safetyRating = v2.safetyRating ∧ v1.safetyRating = 4.5 ∧
      v1.averageValue = v2.averageValue ∧ v1.averageValue = 25000 ∧
      v1.theftRate = v2.theftRate ∧ v1.theftRate = "Low" ∧
      v1.repairCost = v2.repairCost ∧ v1.repairCost = "Medium" ∧
      v1.make = (VehicleInfoArgs.mk "Honda" "Accord" 2020).make ∧
      v1.model = (VehicleInfoArgs.mk "Honda" "Accord" 2020).model ∧
      v1.year = (VehicleInfoArgs.mk "Honda" "Accord" 2020).year ∧
      v2.make = (VehicleInfoArgs.mk "Toyota" "Camry" 1999).make ∧
      v2.model = (VehicleInfoArgs.mk "Toyota" "Camry" 1999).model ∧
      v2.year = (VehicleInfoArgs.mk "Toyota" "Camry" 1999).year :=
  ⟨by decide, by decide,
    vehicle_info_constant_fields (VehicleInfoArgs.mk "Honda" "Accord" 2020)
      (VehicleInfoArgs.mk "Toyota" "Camry" 1999) (by decide) (by decide)⟩

/-! ## Hook pipeline lemmas -/

/-- If some verdict in the list is a deny, the first-deny scan finds a
deny (with some reason). -/
theorem firstDenyReason_of_mem {vs : List Verdict} {v : Verdict}
    (hmem : v ∈ vs) (hd : v.isDeny = true) :
    ∃ r, firstDenyReason vs = some r := by
  induction vs with
  | nil => cases hmem
  | cons w ws ih =>
    cases w with
    | deny r => exact ⟨r, rfl⟩
    | approve =>
      rcases List.mem_cons.mp hmem with h | h
      · rw [h] at hd
        simp [Verdict.isDeny] at hd
      · exact ih h
    | passThrough =>
      rcases List.mem_cons.mp hmem with h | h
      · rw [h] at hd
        simp [Verdict.isDeny] at hd
      · exact ih h

/-- If any registered pre-hook (effectively) denies, the aggregate
pipeline decision is a deny, whatever the other hooks decided. -/
theorem runPre_denied_of_hook_deny (auto : Bool) (hooks : List PreHook)
    (req : ToolRequest) (h : PreHook) (hmem : h ∈ hooks)
    (hd : (effectiveVerdict (h req)).isDeny = true) :
    ∃ r, runPre auto hooks req = Decision.denied r := by
  have hv : effectiveVerdict (h req) ∈
      hooks.map (fun k => effectiveVerdict (k req)) :=
    List.mem_map.mpr ⟨h, hmem, rfl⟩
  obtain ⟨r, hr⟩ := firstDenyReason_of_mem hv hd
  simp only [runPre, hr]
  exact ⟨some r, rfl⟩

/-- C3: if any registered pre-hook returns a deny for a pending
tool-invocation-request, the aggregate decision is deny regardless of the
other hooks (an earlier approve included), the `ToolRunning` state is
never entered for that request, the handler runs zero times, and the
fed-back result is error-flagged. -/
theorem hook_deny_blocks_tool (auto : Bool) (hooks : List PreHook)
    (reg : List ToolDef) (allowed : List String) (req : ToolRequest)
    (h : PreHook) (hmem : h ∈ hooks)
    (hd : (effectiveVerdict (h req)).isDeny = true) :
    (∃ r, runPre auto hooks req = Decision.denied r) ∧
    (processRequest auto hooks reg allowed req).handlerCalls = 0 ∧
    SessState.toolRunning ∉ (processRequest auto hooks reg allowed req).states ∧
    (processRequest auto hooks reg allowed req).result.isError = true := by
  obtain ⟨r, hr⟩ := runPre_denied_of_hook_deny auto hooks req h hmem hd
  refine ⟨⟨r, hr⟩, ?_, ?_, ?_⟩ <;> simp [processRequest, hr]

/-- C3 witness: the spec's scenario — first hook approves, second hook
denies — instantiated concretely. -/
theorem hook_deny_blocks_tool_witness :
    (∃ r, runPre false
      [fun _ => HookOutcome.ret Verdict.approve,
       fun _ => HookOutcome.ret (Verdict.deny "blocked")]
      (ToolRequest.mk "t" []) = Decision.denied r) ∧
    (processRequest false
      [fun _ => HookOutcome.ret Verdict.approve,
       fun _ => HookOutcome.ret (Verdict.deny "blocked")]
      [] [] (ToolRequest.mk "t" [])).handlerCalls = 0 ∧
    SessState.toolRunning ∉ (processRequest false
      [fun _ => HookOutcome.ret Verdict.approve,
       fun _ => HookOutcome.ret (Verdict.deny "blocked")]
      [] [] (ToolRequest.mk "t" [])).states ∧
    (processRequest false
      [fun _ => HookOutcome.ret Verdict.approve,
       fun _ => HookOutcome.ret (Verdict.deny "blocked")]
      [] [] (ToolRequest.mk "t" [])).result.isError = true :=
  hook_deny_blocks_tool false
    [fun _ => HookOutcome.ret Verdict.approve,
     fun _ => HookOutcome.ret (Verdict.deny "blocked")]
    [] [] (ToolRequest.mk "t" [])
    (fun _ => HookOutcome.ret (Verdict.deny "blocked"))
    (List.mem_cons_of_mem _ (List.mem_cons_self _ _))
    rfl

/-- C6: a pre-hook that throws is treated as an implicit deny whose
reason carries the thrown detail; the aggregate decision is deny and the
handler does not execute. -/
theorem hook_throw_fail_closed (auto : Bool) (hooks : List PreHook)
    (reg : List ToolDef) (allowed : List String) (req : ToolRequest)
    (h : PreHook) (d : String) (hmem : h ∈ hooks)
    (hthrow : h req = HookOutcome.thrown d) :
    effectiveVerdict (h req) = Verdict.deny d ∧
    (∃ r, runPre auto hooks req = Decision.denied r) ∧
    (processRequest auto hooks reg allowed req).handlerCalls = 0 ∧
    SessState.toolRunning ∉ (processRequest auto hooks reg allowed req).states := by
  have hev : effectiveVerdict (h req) = Verdict.deny d := by
    rw [hthrow]
    rfl
  have hd : (effectiveVerdict (h req)).isDeny = true := by
    rw [hev]
    rfl
  obtain ⟨r, hr⟩ := runPre_denied_of_hook_deny auto hooks req h hmem hd
  refine ⟨hev, ⟨r, hr⟩, ?_, ?_⟩ <;> simp [processRequest, hr]

/-- C6 witness: a single throwing hook, concretely. -/
theorem hook_throw_fail_closed_witness :
    effectiveVerdict ((fun _ => HookOutcome.thrown "boom")
      (ToolRequest.mk "t" [])) = Verdict.deny "boom" ∧
    (∃ r, runPre true [fun _ => HookOutcome.thrown "boom"]
      (ToolRequest.mk "t" []) = Decision.denied r) ∧
    (processRequest true [fun _ => HookOutcome.thrown "boom"]
      [] [] (ToolRequest.mk "t" [])).handlerCalls = 0 ∧
    SessState.toolRunning ∉ (processRequest true
      [fun _ => HookOutcome.thrown "boom"]
      [] [] (ToolRequest.mk "t" [])).states :=
  hook_throw_fail_closed true [fun _ => HookOutcome.thrown "boom"]
    [] [] (ToolRequest.mk "t" [])
    (fun _ => HookOutcome.thrown "boom") "boom"
    (List.mem_cons_self _ _) rfl

/-- C7: `validate` (the failing-field scan) names every field violating
its declared constraints, not only the first; in the spec's scenario —
schema `a: number, b: number` applied to `a = 2, b = "x"` — the
violation names exactly field `b`. -/
theorem validate_names_every_failing_field (schema : Schema)
    (raw : RawInput) (name : String) (fs : FieldSpec)
    (hmem : (name, fs) ∈ schema) (hfail : fieldOk raw name fs = false) :
    name ∈ failingFields schema raw ∧
    failingFields addToolSchema
      [("a", JValue.num 2), ("b", JValue.str "x")] = ["b"] := by
  constructor
  · unfold failingFields
    exact List.mem_map.mpr
      ⟨(name, fs), List.mem_filter.mpr ⟨hmem, by simp [hfail]⟩, rfl⟩
  · rfl

/-- C7 witness: the theorem applied to the scenario's own schema and
input, at field `b`. -/
theorem validate_names_every_failing_field_witness :
    "b" ∈ failingFields addToolSchema
      [("a", JValue.num 2), ("b", JValue.str "x")] ∧
    failingFields addToolSchema
      [("a", JValue.num 2), ("b", JValue.str "x")] = ["b"] :=
  validate_names_every_failing_field addToolSchema
    [("a", JValue.num 2), ("b", JValue.str "x")]
    "b" (numField none none)
    (List.mem_cons_of_mem _ (List.mem_cons_self _ _)) rfl

/-- C4: every tool-level failure — `UnknownTool` (unresolvable or not
allowed), `SchemaViolation`, and `ToolExecutionError` wrapping a
handler-raised failure — is caught at the registry boundary and converted
into an error-flagged tool result; the denial/failure path always returns
the state machine to `Thinking`; and whenever the configuration is valid,
`run` succeeds (tool failures never surface as a session-level
exception). -/
theorem tool_failures_caught (reg : List ToolDef) (allowed : List String)
    (name : String) (raw : RawInput) :
    (resolve reg name = none →
      execTool reg allowed name raw = (ToolResult.mk name true "UnknownTool", 0)) ∧
    (∀ t, allowed.contains name = true → resolve reg name = some t →
      failingFields t.schema raw ≠ [] →
      execTool reg allowed name raw =
        (ToolResult.mk name true
          ("SchemaViolation: " ++
            String.intercalate ", " (failingFields t.schema raw)), 0)) ∧
    (∀ t e, allowed.contains name = true → resolve reg name = some t →
      failingFields t.schema raw = [] → t.handler raw = Except.error e →
      execTool reg allowed name raw =
        (ToolResult.mk name true ("ToolExecutionError: " ++ e), 1)) ∧
    (∀ auto hooks,
      (processRequest auto hooks reg allowed
        (ToolRequest.mk name raw)).states.getLast? = some SessState.thinking) ∧
    (∀ cfg : SessionConfig, ∀ dec : Nat → ModelDecision,
      cfg.prompt ≠ "" → cfg.maxTurns ≠ 0 →
      cfg.allowedTools.all (fun n => (resolve reg n).isSome) = true →
      ∃ evs, run cfg reg dec = Except.ok evs) := by
  refine ⟨?_, ?_, ?_, ?_, ?_⟩
  · intro hres
    unfold execTool
    split_ifs <;> simp [hres]
  · intro t hal hres hne
    unfold execTool
    split_ifs
    rcases hfs : failingFields t.schema raw with _ | ⟨f, fs⟩
    · exact absurd hfs hne
    · simp [hres, hfs]
  · intro t e hal hres hfs herr
    unfold execTool
    split_ifs
    simp [hres, hfs, herr]
  · intro auto hooks
    unfold processRequest
    rcases runPre auto hooks (ToolRequest.mk name raw) <;> rfl
  · intro cfg dec h1 h2 h3
    refine ⟨runLoop reg cfg.preHooks cfg.autoApprove cfg.allowedTools
      dec cfg.maxTurns 0 0, ?_⟩
    unfold run
    split_ifs with g1
    · exact h1 g1
    · rfl

/-- C4 witness: a registry with one tool whose handler throws; the three
failure conversions and the successful `run` instantiated concretely. -/
theorem tool_failures_caught_witness :
    (resolve [] "ghost" = none →
      execTool [] ["ghost"] "ghost" [] =
        (ToolResult.mk "ghost" true "UnknownTool", 0)) ∧
    (∀ t, ["add"].contains "add" = true →
      resolve [ToolDef.mk "add" "adds" addToolSchema
        (fun _ => Except.error "boom")] "add" = some t →
      failingFields t.schema [("a", JValue.num 2), ("b", JValue.str "x")] ≠ [] →
      execTool [ToolDef.mk "add" "adds" addToolSchema
          (fun _ => Except.error "boom")] ["add"] "add"
          [("a", JValue.num 2), ("b", JValue.str "x")] =
        (ToolResult.mk "add" true
          ("SchemaViolation: " ++ String.intercalate ", "
            (failingFields t.schema
              [("a", JValue.num 2), ("b", JValue.str "x")])), 0)) ∧
    (∀ t e, ["add"].contains "add" = true →
      resolve [ToolDef.mk "add" "adds" addToolSchema
        (fun _ => Except.error "boom")] "add" = some t →
      failingFields t.schema [("a", JValue.num 1), ("b", JValue.num 2)] = [] →
      t.handler [("a", JValue.num 1), ("b", JValue.num 2)] = Except.error e →
      execTool [ToolDef.mk "add" "adds" addToolSchema
          (fun _ => Except.error "boom")] ["add"] "add"
          [("a", JValue.num 1), ("b", JValue.num 2)] =
        (ToolResult.mk "add" true ("ToolExecutionError: " ++ e), 1)) ∧
    (∀ auto hooks,
      (processRequest auto hooks
        [ToolDef.mk "add" "adds" addToolSchema (fun _ => Except.error "boom")]
        ["add"] (ToolRequest.mk "add" [("a", JValue.num 1), ("b", JValue.num 2)])).states.getLast? =
        some SessState.thinking) ∧
    (∀ cfg : SessionConfig, ∀ dec : Nat → ModelDecision,
      cfg.prompt ≠ "" → cfg.maxTurns ≠ 0 →
      cfg.allowedTools.all (fun n =>
        (resolve [ToolDef.mk "add" "adds" addToolSchema
          (fun _ => Except.error "boom")] n).isSome) = true →
      ∃ evs, run cfg
        [ToolDef.mk "add" "adds" addToolSchema (fun _ => Except.error "boom")]
        dec = Except.ok evs) := by
  have h1 := tool_failures_caught ([] : List ToolDef) ["ghost"] "ghost" []
  have h2 := tool_failures_caught
    [ToolDef.mk "add" "adds" addToolSchema (fun _ => Except.error "boom")]
    ["add"] "add" [("a", JValue.num 2), ("b", JValue.str "x")]
  have h3 := tool_failures_caught
    [ToolDef.mk "add" "adds" addToolSchema (fun _ => Except.error "boom")]
    ["add"] "add" [("a", JValue.num 1), ("b", JValue.num 2)]
  exact ⟨h1.1, h2.2.1, h3.2.2.1, h3.2.2.2.1, h3.2.2.2.2⟩


/-- Prepending a tool-request event and a tool-result event (the request
at the current turn, the result after the increment) preserves the loop
invariant: single trailing terminal, annotations monotone and bounded. -/
theorem loop_prop_cons_cons (turns m : Nat) (e1 e2 : Event)
    (h1 : e1.isTerminal = false) (h2 : e2.isTerminal = false)
    (rest : List (Nat × Event))
    (hrest : (∃ pre t, rest = pre ++ [(t, Event.terminal t)] ∧
        (∀ p ∈ pre, p.2.isTerminal = false) ∧
        turns + 1 ≤ t ∧ t ≤ turns + 1 + m) ∧
      (∀ p ∈ rest, turns + 1 ≤ p.1 ∧ p.1 ≤ turns + 1 + m) ∧
      (rest.map Prod.fst).Pairwise (· ≤ ·)) :
    (∃ pre t, (turns, e1) :: (turns + 1, e2) :: rest =
        pre ++ [(t, Event.terminal t)] ∧
      (∀ p ∈ pre, p.2.isTerminal = false) ∧
      turns ≤ t ∧ t ≤ turns + (m + 1)) ∧
    (∀ p ∈ (turns, e1) :: (turns + 1, e2) :: rest,
      turns ≤ p.1 ∧ p.1 ≤ turns + (m + 1)) ∧
    (((turns, e1) :: (turns + 1, e2) :: rest).map Prod.fst).Pairwise (· ≤ ·) := by
  obtain ⟨⟨pre, t, hr, hp, htl, htu⟩, hb, hc⟩ := hrest
  refine ⟨⟨(turns, e1) :: (turns + 1, e2) :: pre, t, ?_, ?_, by omega, by omega⟩,
    ?_, ?_⟩
  · rw [hr]
    rfl
  · intro p hp2
    rcases List.mem_cons.mp hp2 with h | h
    · rw [h]
      exact h1
    · rcases List.mem_cons.mp h with h' | h'
      · rw [h']
        exact h2
      · exact hp p h'
  · intro p hp2
    rcases List.mem_cons.mp hp2 with h | h
    · rw [h]
      exact ⟨le_refl _, by omega⟩
    · rcases List.mem_cons.mp h with h' | h'
      · rw [h']
        exact ⟨by omega, by omega⟩
      · have := hb p h'
        exact ⟨by omega, by omega⟩
  · simp only [List.map_cons]
    refine List.pairwise_cons.mpr ⟨?_, List.pairwise_cons.mpr ⟨?_, hc⟩⟩
    · intro y hy
      rcases List.mem_cons.mp hy with h | h
      · omega
      · obtain ⟨p, hpmem, hpy⟩ := List.mem_map.mp h
        have := hb p hpmem
        omega
    · intro y hy
      obtain ⟨p, hpmem, hpy⟩ := List.mem_map.mp hy
      have := hb p hpmem
      omega

/-- Structural invariant of the session loop: the event sequence is a
prefix of non-terminal events followed by exactly one terminal-summary;
the turn annotations start at the entry count, never decrease, and never
exceed the entry count plus the remaining budget. -/
theorem runLoop_invariant (reg : List ToolDef) (hooks : List PreHook)
    (auto : Bool) (allowed : List String) (dec : Nat → ModelDecision) :
    ∀ remaining step turns,
      (∃ pre t,
        runLoop reg hooks auto allowed dec remaining step turns =
          pre ++ [(t, Event.terminal t)] ∧
        (∀ p ∈ pre, p.2.isTerminal = false) ∧
        turns ≤ t ∧ t ≤ turns + remaining) ∧
      (∀ p ∈ runLoop reg hooks auto allowed dec remaining step turns,
        turns ≤ p.1 ∧ p.1 ≤ turns + remaining) ∧
      ((runLoop reg hooks auto allowed dec remaining step turns).map
        Prod.fst).Pairwise (· ≤ ·) := by
  intro remaining
  induction remaining with
  | zero =>
    intro step turns
    refine ⟨⟨[], turns, rfl, by simp, le_refl _, by simp⟩, ?_, ?_⟩
    · intro p hp
      simp only [runLoop, List.mem_singleton] at hp
      rw [hp]
      simp
    · simp [runLoop]
  | succ m ih =>
    intro step turns
    cases hdec : dec step with
    | answer t =>
      simp only [runLoop, hdec]
      refine ⟨⟨[(turns, Event.assistantText t)], turns, rfl, ?_, le_refl _,
        by omega⟩, ?_, ?_⟩
      · intro p hp
        simp only [List.mem_singleton] at hp
        rw [hp]
        rfl
      · intro p hp
        rcases List.mem_cons.mp hp with h | h
        · rw [h]
          exact ⟨le_refl _, by omega⟩
        · simp only [List.mem_singleton] at h
          rw [h]
          exact ⟨le_refl _, by omega⟩
      · simp
    | callTool nm args =>
      simp only [runLoop, hdec]
      refine loop_prop_cons_cons turns m _ _ ?_ ?_ _ (ih (step + 1) (turns + 1))
      · rfl
      · rfl


/-- A successful `run` means the configuration validated (in particular
max turns is at least 1) and the events are those of the session loop
started with a turn counter of zero and a budget of `maxTurns`. -/
theorem run_ok_elim (cfg : SessionConfig) (reg : List ToolDef)
    (dec : Nat → ModelDecision) (evs : List (Nat × Event))
    (hrun : run cfg reg dec = Except.ok evs) :
    cfg.maxTurns ≠ 0 ∧
    evs = runLoop reg cfg.preHooks cfg.autoApprove cfg.allowedTools dec
      cfg.maxTurns 0 0 := by
  unfold run at hrun
  split_ifs at hrun with g1 g2 g3
  all_goals cases hrun
  exact ⟨g2, rfl⟩

/-- C1: over every session event sequence produced by `run`, the Turn
Counter annotations are monotonically non-decreasing and never exceed the
configured `maxTurns`, which a validated configuration fixes at a
positive value. -/
theorem turn_counter_monotone_bounded (cfg : SessionConfig)
    (reg : List ToolDef) (dec : Nat → ModelDecision)
    (evs : List (Nat × Event)) (hrun : run cfg reg dec = Except.ok evs) :
    1 ≤ cfg.maxTurns ∧
    ((evs.map Prod.fst).Pairwise (· ≤ ·)) ∧
    (∀ p ∈ evs, p.1 ≤ cfg.maxTurns) := by
  obtain ⟨hmt, hevs⟩ := run_ok_elim cfg reg dec evs hrun
  obtain ⟨_, hbounds, hpair⟩ := runLoop_invariant reg cfg.preHooks
    cfg.autoApprove cfg.allowedTools dec cfg.maxTurns 0 0
  subst hevs
  refine ⟨by omega, hpair, fun p hp => ?_⟩
  have := (hbounds p hp).2
  omega

/-- C1 witness: the spec's basic scenario (prompt, no tools, one turn,
model answers immediately). -/
theorem turn_counter_monotone_bounded_witness :
    1 ≤ (SessionConfig.mk "2+2" [] 1 false []).maxTurns ∧
    (([((0:Nat), Event.assistantText "4"),
       ((0:Nat), Event.terminal 0)].map Prod.fst).Pairwise (· ≤ ·)) ∧
    (∀ p ∈ [((0:Nat), Event.assistantText "4"), ((0:Nat), Event.terminal 0)],
      p.1 ≤ (SessionConfig.mk "2+2" [] 1 false []).maxTurns) :=
  turn_counter_monotone_bounded (SessionConfig.mk "2+2" [] 1 false []) []
    (fun _ => ModelDecision.answer "4")
    [((0:Nat), Event.assistantText "4"), ((0:Nat), Event.terminal 0)] rfl

/-- C2: in every session event sequence produced by `run`, the
terminal-summary event occurs exactly once and is the last event — no
event of any kind follows it. -/
theorem terminal_summary_once_and_last (cfg : SessionConfig)
    (reg : List ToolDef) (dec : Nat → ModelDecision)
    (evs : List (Nat × Event)) (hrun : run cfg reg dec = Except.ok evs) :
    (∃ pre t, evs = pre ++ [(t, Event.terminal t)] ∧
      ∀ p ∈ pre, p.2.isTerminal = false) ∧
    (evs.map Prod.snd).countP Event.isTerminal = 1 := by
  obtain ⟨hmt, hevs⟩ := run_ok_elim cfg reg dec evs hrun
  obtain ⟨⟨pre, t, hr, hp, _, _⟩, _, _⟩ := runLoop_invariant reg cfg.preHooks
    cfg.autoApprove cfg.allowedTools dec cfg.maxTurns 0 0
  subst hevs
  refine ⟨⟨pre, t, hr, hp⟩, ?_⟩
  rw [hr, List.map_append, List.countP_append]
  have h0 : (pre.map Prod.snd).countP Event.isTerminal = 0 := by
    rw [List.countP_eq_zero]
    intro e he
    obtain ⟨p, hpm, hpe⟩ := List.mem_map.mp he
    rw [← hpe]
    simp [hp p hpm]
  rw [h0]
  simp [Event.isTerminal]

/-- C2 witness: a one-answer session, concretely. -/
theorem terminal_summary_once_and_last_witness :
    (∃ pre t, [((0:Nat), Event.assistantText "hi"),
        ((0:Nat), Event.terminal 0)] = pre ++ [(t, Event.terminal t)] ∧
      ∀ p ∈ pre, p.2.isTerminal = false) ∧
    ([((0:Nat), Event.assistantText "hi"),
      ((0:Nat), Event.terminal 0)].map Prod.snd).countP Event.isTerminal = 1 :=
  terminal_summary_once_and_last (SessionConfig.mk "hello" [] 2 false []) []
    (fun _ => ModelDecision.answer "hi")
    [((0:Nat), Event.assistantText "hi"), ((0:Nat), Event.terminal 0)] rfl

/-- When the model requests a tool call at every thinking step, the
session loop spends its whole budget and ends with a terminal-summary
whose turn count is the entry count plus the budget. -/
theorem runLoop_allCall (reg : List ToolDef) (hooks : List PreHook)
    (auto : Bool) (allowed : List String) (dec : Nat → ModelDecision)
    (hcall : ∀ s, ∃ nm args, dec s = ModelDecision.callTool nm args) :
    ∀ remaining step turns, ∃ pre,
      runLoop reg hooks auto allowed dec remaining step turns =
        pre ++ [(turns + remaining, Event.terminal (turns + remaining))] := by
  intro remaining
  induction remaining with
  | zero =>
    intro step turns
    exact ⟨[], by simp [runLoop]⟩
  | succ m ih =>
    intro step turns
    obtain ⟨nm, args, hdec⟩ := hcall step
    obtain ⟨pre, hpre⟩ := ih (step + 1) (turns + 1)
    refine ⟨(turns, Event.toolRequestEv nm args) ::
      (turns + 1, Event.toolResultEv
        (processRequest auto hooks reg allowed
          (ToolRequest.mk nm args)).result.toolName
        (processRequest auto hooks reg allowed
          (ToolRequest.mk nm args)).result.isError
        (processRequest auto hooks reg allowed
          (ToolRequest.mk nm args)).result.content) :: pre, ?_⟩
    simp only [runLoop, hdec]
    rw [hpre]
    have harith : turns + 1 + m = turns + (m + 1) := by omega
    rw [harith]
    rfl

/-- C5: `run` yields a finite event sequence ending in a terminal-summary
whose turn count is bounded by `maxTurns`; with `maxTurns = 3` and a
model that requests another tool call on every turn, the session always
terminates at turn 3 with a terminal-summary. -/
theorem session_bounded_termination (cfg : SessionConfig)
    (reg : List ToolDef) (dec : Nat → ModelDecision)
    (evs : List (Nat × Event)) (hrun : run cfg reg dec = Except.ok evs) :
    (∃ pre t, evs = pre ++ [(t, Event.terminal t)] ∧ t ≤ cfg.maxTurns) ∧
    (cfg.maxTurns = 3 →
      (∀ s, ∃ nm args, dec s = ModelDecision.callTool nm args) →
      ∃ pre, evs = pre ++ [(3, Event.terminal 3)]) := by
  obtain ⟨hmt, hevs⟩ := run_ok_elim cfg reg dec evs hrun
  constructor
  · obtain ⟨⟨pre, t, hr, _, _, htu⟩, _, _⟩ := runLoop_invariant reg cfg.preHooks
      cfg.autoApprove cfg.allowedTools dec cfg.maxTurns 0 0
    refine ⟨pre, t, hevs ▸ hr, by omega⟩
  · intro h3 hcall
    obtain ⟨pre, hpre⟩ := runLoop_allCall reg cfg.preHooks cfg.autoApprove
      cfg.allowedTools dec hcall cfg.maxTurns 0 0
    refine ⟨pre, ?_⟩
    rw [hevs, hpre, h3]


/-- C5 witness: three always-requested tool rounds, concretely. -/
theorem session_bounded_termination_witness :
    (∃ pre t,
      [((0:Nat), Event.toolRequestEv "t" []),
       ((1:Nat), Event.toolResultEv "t" false "done"),
       ((1:Nat), Event.toolRequestEv "t" []),
       ((2:Nat), Event.toolResultEv "t" false "done"),
       ((2:Nat), Event.toolRequestEv "t" []),
       ((3:Nat), Event.toolResultEv "t" false "done"),
       ((3:Nat), Event.terminal 3)] = pre ++ [(t, Event.terminal t)] ∧
      t ≤ (SessionConfig.mk "go" ["t"] 3 true []).maxTurns) ∧
    ((SessionConfig.mk "go" ["t"] 3 true []).maxTurns = 3 →
      (∀ s, ∃ nm args, (fun _ : Nat => ModelDecision.callTool "t" []) s =
        ModelDecision.callTool nm args) →
      ∃ pre,
        [((0:Nat), Event.toolRequestEv "t" []),
         ((1:Nat), Event.toolResultEv "t" false "done"),
         ((1:Nat), Event.toolRequestEv "t" []),
         ((2:Nat), Event.toolResultEv "t" false "done"),
         ((2:Nat), Event.toolRequestEv "t" []),
         ((3:Nat), Event.toolResultEv "t" false "done"),
         ((3:Nat), Event.terminal 3)] = pre ++ [(3, Event.terminal 3)]) :=
  session_bounded_termination (SessionConfig.mk "go" ["t"] 3 true [])
    [ToolDef.mk "t" "demo" [] (fun _ => Except.ok "done")]
    (fun _ => ModelDecision.callTool "t" [])
    [((0:Nat), Event.toolRequestEv "t" []),
     ((1:Nat), Event.toolResultEv "t" false "done"),
     ((1:Nat), Event.toolRequestEv "t" []),
     ((2:Nat), Event.toolResultEv "t" false "done"),
     ((2:Nat), Event.toolRequestEv "t" []),
     ((3:Nat), Event.toolResultEv "t" false "done"),
     ((3:Nat), Event.terminal 3)] rfl

end AgentSession
